import Mathlib

/-!
Verification of the framework detection and deployment-strategy resolution
engine of the quick-deploy repository.

The definitions below are a shallow embedding of:
  * `src/core/FrameworkDetector.ts` — the `FRAMEWORKS` registry and the
    `FrameworkDetector` class (`detect`, `detectStaticSite`, `scoreFramework`,
    `enhanceFrameworkConfig`, `adaptCommand`, `detectPackageManager`,
    `readPackageJson`);
  * `legacy-bash/lib/deployers/workers.sh` — `deploy_to_cloudflare` and the
    per-topology deploy functions (`deploy_hybrid_build`, `deploy_ssr_build`,
    `deploy_opennext_build`, `deploy_static_build`, `deploy_unknown_build`);
  * `src/builders/BuilderFactory.ts` (AstroBuilder variant) —
    `determineDeploymentType`;
  * `src/deployers/CloudflareDeployer.ts` — the worker-name sanitisation in
    `generateConfigForFramework`.

The filesystem is modelled as the list of (relative) paths that exist, and the
project manifest as absent / malformed / parsed-with-dependency-names.  The
module-level mutable `FRAMEWORKS` array is modelled by explicit state passing:
every operation that can mutate it takes the registry and returns the updated
registry.
-/

/-! ### String helpers

JavaScript string primitives used by the source, modelled on the character
lists underlying `String`:
  * `strStarts s pre` is `s.startsWith(pre)`;
  * `replaceOnce s pat` is `s.replace(pat, '')` (a string pattern in
    JavaScript replaces only the first occurrence).
-/

def prefChars : List Char → List Char → Bool
  | [], _ => true
  | _ :: _, [] => false
  | p :: ps, c :: cs => p == c && prefChars ps cs

def strStarts (s pre : String) : Bool :=
  prefChars pre.data s.data

def dropFirstOcc (pat : List Char) : List Char → List Char
  | [] => []
  | c :: cs =>
    if prefChars pat (c :: cs) then List.drop pat.length (c :: cs)
    else c :: dropFirstOcc pat cs

def replaceOnce (s pat : String) : String :=
  ⟨dropFirstOcc pat.data s.data⟩

/-! ### Data model (`FrameworkConfig` from `src/core/FrameworkDetector.ts`) -/

structure DetectionCfg where
  configFiles : List String
  dependencies : List String
  staticFiles : List String
deriving DecidableEq

structure BuildCfg where
  command : String
  outputDir : String
deriving DecidableEq

structure DeployCfg where
  type : String
  adapter : Option String
  compatibilityFlags : List String
deriving DecidableEq

structure DevCfg where
  command : String
  port : Option Nat
deriving DecidableEq

structure FrameworkConfig where
  name : String
  detection : DetectionCfg
  build : BuildCfg
  deploy : DeployCfg
  dev : DevCfg
deriving DecidableEq

/-! ### The `FRAMEWORKS` registry -/

def angularConfig : FrameworkConfig :=
  { name := "angular"
    detection := { configFiles := ["angular.json"]
                   dependencies := ["@angular/core", "@angular/cli"]
                   staticFiles := [] }
    build := { command := "npm run build", outputDir := "dist" }
    deploy := { type := "ssr", adapter := none, compatibilityFlags := ["nodejs_compat"] }
    dev := { command := "npm run dev", port := some 4200 } }

def nuxtConfig : FrameworkConfig :=
  { name := "nuxt"
    detection := { configFiles := ["nuxt.config.ts", "nuxt.config.js"]
                   dependencies := ["nuxt", "@nuxt/kit"]
                   staticFiles := [] }
    build := { command := "npm run build", outputDir := ".output" }
    deploy := { type := "ssr", adapter := none, compatibilityFlags := ["nodejs_compat"] }
    dev := { command := "npm run dev", port := some 3000 } }

def nextjsConfig : FrameworkConfig :=
  { name := "nextjs"
    detection := { configFiles := ["next.config.js", "next.config.mjs", "next.config.ts"]
                   dependencies := ["next"]
                   staticFiles := [] }
    build := { command := "npm run build", outputDir := ".open-next" }
    deploy := { type := "ssr", adapter := none
                compatibilityFlags := ["nodejs_compat", "global_fetch_strictly_public"] }
    dev := { command := "npm run dev", port := some 3000 } }

def astroConfig : FrameworkConfig :=
  { name := "astro"
    detection := { configFiles := ["astro.config.mjs", "astro.config.js", "astro.config.ts"]
                   dependencies := ["astro"]
                   staticFiles := [] }
    build := { command := "npm run build", outputDir := "dist" }
    deploy := { type := "ssr", adapter := some "@astrojs/cloudflare"
                compatibilityFlags := ["nodejs_compat"] }
    dev := { command := "npm run dev", port := some 4321 } }

def svelteConfig : FrameworkConfig :=
  { name := "svelte"
    detection := { configFiles := ["svelte.config.js"]
                   dependencies := ["svelte", "@sveltejs/kit"]
                   staticFiles := [] }
    build := { command := "npm run build", outputDir := ".svelte-kit/cloudflare" }
    deploy := { type := "ssr", adapter := some "@sveltejs/adapter-cloudflare"
                compatibilityFlags := [] }
    dev := { command := "npm run dev", port := some 5173 } }

def reactRouterConfig : FrameworkConfig :=
  { name := "react-router"
    detection := { configFiles := ["react-router.config.ts", "react-router.config.js"]
                   dependencies := ["react-router", "@react-router/dev"]
                   staticFiles := [] }
    build := { command := "npm run build", outputDir := "build" }
    deploy := { type := "ssr", adapter := none, compatibilityFlags := ["nodejs_compat"] }
    dev := { command := "npm run dev", port := some 3000 } }

def remixConfig : FrameworkConfig :=
  { name := "remix"
    detection := { configFiles := ["remix.config.js"]
                   dependencies := ["@remix-run/node", "@remix-run/react"]
                   staticFiles := [] }
    build := { command := "npm run build", outputDir := "build" }
    deploy := { type := "ssr", adapter := none, compatibilityFlags := ["nodejs_compat"] }
    dev := { command := "npm run dev", port := some 3000 } }

def reactConfig : FrameworkConfig :=
  { name := "react"
    detection := { configFiles := ["vite.config.js", "vite.config.ts", "vite.config.mjs"]
                   dependencies := ["vite", "react"]
                   staticFiles := [] }
    build := { command := "npm run build", outputDir := "dist" }
    deploy := { type := "static", adapter := none, compatibilityFlags := [] }
    dev := { command := "npm run dev", port := some 5173 } }

def staticConfig : FrameworkConfig :=
  { name := "static"
    detection := { configFiles := []
                   dependencies := []
                   staticFiles := ["index.html"] }
    build := { command := "", outputDir := "." }
    deploy := { type := "static", adapter := none, compatibilityFlags := [] }
    dev := { command := "", port := some 8080 } }

/-- The module-level `FRAMEWORKS` array, in declaration order. -/
def initialFrameworks : List FrameworkConfig :=
  [angularConfig, nuxtConfig, nextjsConfig, astroConfig, svelteConfig,
   reactRouterConfig, remixConfig, reactConfig, staticConfig]

/-! ### Filesystem and manifest model -/

/-- State of `package.json`: missing, present-but-unparseable, or parsed.
`parsed deps` carries the names present in `dependencies` merged with
`devDependencies` (only names matter to detection). -/
inductive ManifestState
  | absent
  | malformed
  | parsed (deps : List String)
deriving DecidableEq

structure ProjectFS where
  manifest : ManifestState
  files : List String
deriving DecidableEq

/-- `readPackageJson`: `fs.readJson('package.json')` inside `try/catch` —
a missing file and a malformed file both throw, and the catch block returns
`null` for either. -/
def readPackageJson : ManifestState → Option (List String)
  | .parsed deps => some deps
  | _ => none

/-! ### Scoring (`FrameworkDetector.scoreFramework`) -/

/-- The per-variant, per-dependency weight: the if/else chain inside the
dependency loop of `scoreFramework`. -/
def depWeight (name dep : String) : Nat :=
  if name = "angular" ∧ (dep = "@angular/core" ∨ dep = "@angular/cli") then 200
  else if name = "nuxt" ∧ dep = "nuxt" then 180
  else if name = "react-router" ∧ (dep = "react-router" ∨ dep = "@react-router/dev") then 200
  else if name = "nextjs" ∧ dep = "next" then 150
  else if name = "astro" ∧ dep = "astro" then 150
  else if name = "svelte" ∧ dep = "@sveltejs/kit" then 150
  else if name = "remix" then 100
  else if name = "react" then 50
  else 75

/-- The dependency loop: each declared detection dependency present in the
manifest's merged dependency names adds its weight. -/
def depScoreList (name : String) : List String → List String → Nat
  | [], _ => 0
  | dep :: rest, deps =>
    (if deps.contains dep then depWeight name dep else 0) + depScoreList name rest deps

/-- The config-file loop: the first declared config file that exists adds 100
and the loop breaks. -/
def cfgScore : List String → List String → Nat
  | [], _ => 0
  | c :: cs, files => if files.contains c then 100 else cfgScore cs files

def scoreFramework (fw : FrameworkConfig) (deps files : List String) : Nat :=
  depScoreList fw.name fw.detection.dependencies deps
    + cfgScore fw.detection.configFiles files

/-- Score every registered framework except the static fallback, in registry
order (the `FRAMEWORKS.filter(...).map(...)` of `detect`). -/
def scoreAll (reg : List FrameworkConfig) (deps files : List String) :
    List (FrameworkConfig × Nat) :=
  (reg.filter (fun f => !(f.name == "static"))).map
    (fun f => (f, scoreFramework f deps files))

/-- `scores.filter(s => s.score > 0).sort((a, b) => b.score - a.score)[0]`:
a stable descending sort followed by taking the head returns the earliest
element of maximal score, which this fold computes (the accumulator is
replaced only on a strictly larger score). -/
def pickBestAux : Option (FrameworkConfig × Nat) → List (FrameworkConfig × Nat) →
    Option (FrameworkConfig × Nat)
  | acc, [] => acc
  | none, p :: rest => pickBestAux (some p) rest
  | some q, p :: rest => pickBestAux (if q.2 < p.2 then some p else some q) rest

def pickBest (l : List (FrameworkConfig × Nat)) : Option (FrameworkConfig × Nat) :=
  pickBestAux none (l.filter (fun p => 0 < p.2))

/-! ### Static-site detection (`FrameworkDetector.detectStaticSite`) -/

def staticLocations : List String :=
  ["index.html", "public/index.html", "dist/index.html",
   "build/index.html", "_site/index.html", "out/index.html"]

/-- The `for (const location of staticLocations)` loop with early return. -/
def firstExisting (files : List String) : List String → Option String
  | [] => none
  | loc :: rest => if files.contains loc then some loc else firstExisting files rest

def setStaticOutputDir (d : String) (f : FrameworkConfig) : FrameworkConfig :=
  { f with build := { f.build with outputDir := d } }

/-- The in-place assignment `staticFramework.build.outputDir = ...`:
`staticFramework` aliases the entry of the module-level `FRAMEWORKS` array
whose name is `static`, so the registry entry itself is rewritten. -/
def staticRegUpdate (d : String) (reg : List FrameworkConfig) : List FrameworkConfig :=
  reg.map (fun f => if f.name = "static" then setStaticOutputDir d f else f)

/-- `detectStaticSite`: finds the first existing candidate `index.html`
location.  When the location is not the project root it assigns
`staticFramework.build.outputDir` — and `staticFramework` is the object held
in the module-level `FRAMEWORKS` array, so the registry itself is updated.
Returns the (possibly updated) static registry entry and the registry. -/
def detectStaticSite (reg : List FrameworkConfig) (files : List String) :
    Option FrameworkConfig × List FrameworkConfig :=
  match firstExisting files staticLocations with
  | none => (none, reg)
  | some loc =>
    if loc = "index.html" then
      (reg.find? (fun f => f.name == "static"), reg)
    else
      let reg' := staticRegUpdate (replaceOnce loc "/index.html") reg
      (reg'.find? (fun f => f.name == "static"), reg')

/-! ### Command adaptation (`detectPackageManager`, `adaptCommand`,
`enhanceFrameworkConfig`) -/

def detectPackageManager (files : List String) : String :=
  if files.contains "pnpm-lock.yaml" then "pnpm"
  else if files.contains "yarn.lock" then "yarn"
  else if files.contains "bun.lockb" then "bun"
  else "npm"

def adaptCommand (command : String) (packageManager : String) : String :=
  if command = "" ∨ strStarts command "npm run" = true then
    let script := replaceOnce command "npm run "
    if packageManager = "pnpm" then "pnpm run " ++ script
    else if packageManager = "yarn" then "yarn " ++ script
    else if packageManager = "bun" then "bun run " ++ script
    else command
  else command

/-- The two command assignments of `enhanceFrameworkConfig`.  In the source,
`const enhanced = { ...framework }` is a shallow copy: `enhanced.build` and
`enhanced.dev` alias the registry entry's nested objects, so assigning
`enhanced.build.command` / `enhanced.dev.command` writes through to the
registry. -/
def adaptEntry (packageManager : String) (f : FrameworkConfig) : FrameworkConfig :=
  { f with
    build := { f.build with command := adaptCommand f.build.command packageManager }
    dev := { f.dev with command := adaptCommand f.dev.command packageManager } }

def enhanceFrameworkConfig (reg : List FrameworkConfig) (f : FrameworkConfig)
    (files : List String) : Option FrameworkConfig × List FrameworkConfig :=
  if f.name = "static" then (some f, reg)
  else
    let pm := detectPackageManager files
    (some (adaptEntry pm f),
     reg.map (fun g => if g.name = f.name then adaptEntry pm g else g))

/-! ### `FrameworkDetector.detect` -/

def detect (reg : List FrameworkConfig) (fs : ProjectFS) :
    Option FrameworkConfig × List FrameworkConfig :=
  match readPackageJson fs.manifest with
  | none => detectStaticSite reg fs.files
  | some deps =>
    match pickBest (scoreAll reg deps fs.files) with
    | none => detectStaticSite reg fs.files
    | some (f, _) => enhanceFrameworkConfig reg f fs.files

/-! ### Deployment-strategy resolution (`legacy-bash/lib/deployers/workers.sh`)

`deploy_to_cloudflare` classifies the build artifact by an if/elif chain and
dispatches to one of five per-topology deploy functions.  The probe carries
exactly the facts the chain tests: existence of `$BUILD_DIR/_worker.js/index.js`
(the server-entry file), existence of `$BUILD_DIR/index.html` (the root
static-index marker), the `$FRAMEWORK` variable, and existence of the
`.open-next` directory (the adapter's marker directory). -/

structure DeployProbe where
  workerIndex : Bool
  indexHtml : Bool
  framework : String
  openNextDir : Bool
deriving DecidableEq

inductive DeployKind
  | hybrid
  | ssr
  | platformAdapter
  | staticAssets
  | unknownLayout
deriving DecidableEq

/-- The classification chain of `deploy_to_cloudflare` (first match wins). -/
def resolveDeployment (p : DeployProbe) : DeployKind :=
  if p.workerIndex && p.indexHtml then .hybrid
  else if p.workerIndex then .ssr
  else if p.framework == "opennext" && p.openNextDir then .platformAdapter
  else if p.indexHtml then .staticAssets
  else .unknownLayout

/-- The probe as `deploy_to_cloudflare` computes it from the build directory:
`[ -f "$BUILD_DIR/_worker.js/index.js" ]` and `[ -f "$BUILD_DIR/index.html" ]`
on the artifact's file set, plus the `$FRAMEWORK` variable and the
`.open-next` directory test. -/
def probeOfBuildDir (files : List String) (framework : String)
    (openNextDir : Bool) : DeployProbe :=
  { workerIndex := files.contains "_worker.js/index.js"
    indexHtml := files.contains "index.html"
    framework := framework
    openNextDir := openNextDir }

/-- `determineDeploymentType` of the Astro builder
(`src/builders/BuilderFactory.ts` related sources): the same overlap-ordered
test on `${buildDir}/_worker.js/index.js` and `${buildDir}/index.html`. -/
def determineDeploymentType (workerIndexExists indexHtmlExists : Bool) : String :=
  if workerIndexExists then
    if indexHtmlExists then "hybrid" else "ssr"
  else "static"

inductive DeployOutcome
  | success
  | failed
  | exitedWithHelp
deriving DecidableEq

/-- Observable effects of one per-topology deploy function: whether it created
a `/tmp/deploy-…` scratch directory, whether that directory is left behind
when the function returns or the process exits, the file set present in the
directory deployed from, and how the run ended. -/
structure DeployRun where
  usedScratch : Bool
  scratchLeaked : Bool
  deployedFiles : List String
  outcome : DeployOutcome
deriving DecidableEq

/-- `cp -r "$BUILD_DIR"/* "$TEMP_DIR"/` — the unquoted `*` glob skips
top-level dot entries. -/
def copyGlob (files : List String) : List String :=
  files.filter (fun p => !(strStarts p "."))

/-- The static-only artifact set `deploy_hybrid_build` leaves in the scratch
directory: the glob copy, minus the `_worker.js` directory (`rm -rf`) and the
`_routes.json` route manifest (`rm -f`). -/
def hybridCopiedFiles (files : List String) : List String :=
  (copyGlob files).filter
    (fun p => !(p == "_worker.js" || strStarts p "_worker.js/" || p == "_routes.json"))

/-- `deploy_hybrid_build`: scratch directory, static-only copy, generated
`wrangler.toml` and synthetic `index.js` worker; `rm -rf "$TEMP_DIR"` runs
after both the success and the `print_error` branch. -/
def deployHybridBuild (files : List String) (wranglerOk : Bool) : DeployRun :=
  { usedScratch := true
    scratchLeaked := false
    deployedFiles := hybridCopiedFiles files ++ ["wrangler.toml", "index.js"]
    outcome := if wranglerOk then .success else .failed }

/-- `deploy_ssr_build`: scratch directory, full copy, generated
`wrangler.toml`; cleanup on both branches. -/
def deploySsrBuild (files : List String) (wranglerOk : Bool) : DeployRun :=
  { usedScratch := true
    scratchLeaked := false
    deployedFiles := copyGlob files ++ ["wrangler.toml"]
    outcome := if wranglerOk then .success else .failed }

/-- `deploy_opennext_build`: creates the scratch directory and copies
`.open-next/*` into it before checking for `worker.js`.  With the worker
present it deploys and removes the directory on both branches; with the worker
missing it calls `exit_with_help` (which runs `exit 1` — see
`src/unnamed/part_001`), so the scratch directory is never removed. -/
def deployOpenNextBuild (openNextFiles : List String) (wranglerOk : Bool) : DeployRun :=
  let copied := copyGlob openNextFiles
  if copied.contains "worker.js" then
    { usedScratch := true
      scratchLeaked := false
      deployedFiles := copied ++ ["wrangler.toml"]
      outcome := if wranglerOk then .success else .failed }
  else
    { usedScratch := true
      scratchLeaked := true
      deployedFiles := []
      outcome := .exitedWithHelp }

/-- `deploy_static_build`: `wrangler deploy --assets="$BUILD_DIR"` in place;
no scratch directory; failure runs `exit_with_help`. -/
def deployStaticBuild (files : List String) (wranglerOk : Bool) : DeployRun :=
  { usedScratch := false
    scratchLeaked := false
    deployedFiles := files
    outcome := if wranglerOk then .success else .exitedWithHelp }

/-- `deploy_unknown_build`: best-effort assets deployment in place. -/
def deployUnknownBuild (files : List String) (wranglerOk : Bool) : DeployRun :=
  { usedScratch := false
    scratchLeaked := false
    deployedFiles := files
    outcome := if wranglerOk then .success else .exitedWithHelp }

/-! ### Worker-name sanitisation (`CloudflareDeployer.generateConfigForFramework`)

`config.projectName.toLowerCase().replace(/[^a-z0-9-]/g, '-')`.
`Char.toLower` models `toLowerCase` per character (they agree on ASCII; for
characters where they differ, both results fall outside `[a-z0-9-]` or inside
it identically after the replacement, which is all the properties below use). -/

def isAllowedNameChar (c : Char) : Bool :=
  ('a' ≤ c && c ≤ 'z') || ('0' ≤ c && c ≤ '9') || c == '-'

def sanitizeWorkerName (s : String) : String :=
  ⟨(s.data.map Char.toLower).map (fun c => if isAllowedNameChar c then c else '-')⟩

structure WranglerBaseConfig where
  name : String
  compatibilityDate : String
  observabilityEnabled : Bool
deriving DecidableEq

/-- The `baseConfig` object built at the top of `generateConfigForFramework`. -/
def generateBaseConfig (projectName today : String) : WranglerBaseConfig :=
  { name := sanitizeWorkerName projectName
    compatibilityDate := today
    observabilityEnabled := true }

/-- The projection of a registry entry onto the fields the spec calls
immutable: name, detection signals, deploy settings and dev port. -/
def registrySignature (f : FrameworkConfig) :
    String × DetectionCfg × DeployCfg × Option Nat :=
  (f.name, f.detection, f.deploy, f.dev.port)

/-! ### Helper lemmas -/

lemma adaptEntry_name (pm : String) (f : FrameworkConfig) :
    (adaptEntry pm f).name = f.name := rfl

lemma scoreFramework_adaptEntry (pm : String) (f : FrameworkConfig)
    (deps files : List String) :
    scoreFramework (adaptEntry pm f) deps files = scoreFramework f deps files := rfl

lemma map_idem_of (l : List FrameworkConfig) (u : FrameworkConfig → FrameworkConfig)
    (h : ∀ a, u (u a) = u a) : (l.map u).map u = l.map u := by
  induction l with
  | nil => rfl
  | cons a t ih => simp [h a, ih]

lemma staticRegUpdate_idem (d : String) (reg : List FrameworkConfig) :
    staticRegUpdate d (staticRegUpdate d reg) = staticRegUpdate d reg := by
  unfold staticRegUpdate
  apply map_idem_of
  intro a
  by_cases ha : a.name = "static"
  · simp [ha, setStaticOutputDir]
  · simp [ha]

lemma dSS_found_none (reg : List FrameworkConfig) (files : List String)
    (h : firstExisting files staticLocations = none) :
    detectStaticSite reg files = (none, reg) := by
  unfold detectStaticSite
  rw [h]

lemma dSS_found_root (reg : List FrameworkConfig) (files : List String)
    (h : firstExisting files staticLocations = some "index.html") :
    detectStaticSite reg files = (reg.find? (fun f => f.name == "static"), reg) := by
  unfold detectStaticSite
  rw [h]
  rfl

lemma dSS_found_other (reg : List FrameworkConfig) (files : List String) (loc : String)
    (h : firstExisting files staticLocations = some loc) (hne : loc ≠ "index.html") :
    detectStaticSite reg files =
      ((staticRegUpdate (replaceOnce loc "/index.html") reg).find? (fun f => f.name == "static"),
       staticRegUpdate (replaceOnce loc "/index.html") reg) := by
  unfold detectStaticSite
  rw [h]
  dsimp only
  rw [if_neg hne]

lemma detectStaticSite_idem (reg : List FrameworkConfig) (files : List String) :
    detectStaticSite (detectStaticSite reg files).2 files = detectStaticSite reg files := by
  cases hfe : firstExisting files staticLocations with
  | none => simp [dSS_found_none _ _ hfe]
  | some loc =>
    by_cases hloc : loc = "index.html"
    · subst hloc
      simp [dSS_found_root _ _ hfe]
    · simp [dSS_found_other _ _ _ hfe hloc, staticRegUpdate_idem]

lemma scoreAll_map_eq (reg : List FrameworkConfig) (u : FrameworkConfig → FrameworkConfig)
    (deps files : List String)
    (hname : ∀ f, (u f).name = f.name)
    (hscore : ∀ f, scoreFramework (u f) deps files = scoreFramework f deps files) :
    scoreAll (reg.map u) deps files
      = (scoreAll reg deps files).map (fun p => (u p.1, p.2)) := by
  induction reg with
  | nil => rfl
  | cons f t ih =>
    by_cases hf : f.name = "static"
    · have h1 : (!((u f).name == "static")) = false := by
        rw [hname f, hf]
        rfl
      have h2 : (!(f.name == "static")) = false := by
        rw [hf]
        rfl
      simp only [scoreAll, List.map_cons, List.filter_cons, h1, h2, Bool.false_eq_true,
        if_false] at ih ⊢
      exact ih
    · have h1 : (!((u f).name == "static")) = true := by
        rw [hname f]
        simp [hf]
      have h2 : (!(f.name == "static")) = true := by
        simp [hf]
      simp only [scoreAll, List.map_cons, List.filter_cons, h1, h2, if_true] at ih ⊢
      simp only [List.map_cons, ih, hscore f]

lemma scoreAll_staticRegUpdate (d : String) (reg : List FrameworkConfig)
    (deps files : List String) :
    scoreAll (staticRegUpdate d reg) deps files = scoreAll reg deps files := by
  unfold staticRegUpdate
  induction reg with
  | nil => rfl
  | cons f t ih =>
    by_cases hf : f.name = "static"
    · have h1 : (!((if f.name = "static" then setStaticOutputDir d f else f).name == "static"))
        = false := by
        simp [hf, setStaticOutputDir]
      have h2 : (!(f.name == "static")) = false := by
        rw [hf]
        rfl
      simp only [scoreAll, List.map_cons, List.filter_cons, h1, h2, Bool.false_eq_true,
        if_false] at ih ⊢
      exact ih
    · have h1 : (!((if f.name = "static" then setStaticOutputDir d f else f).name == "static"))
        = true := by
        simp [hf]
      have h2 : (!(f.name == "static")) = true := by
        simp [hf]
      simp only [scoreAll, List.map_cons, List.filter_cons, h1, h2, if_true] at ih ⊢
      simp only [List.map_cons, if_neg hf, ih]

lemma scoreAll_dSS_reg (reg : List FrameworkConfig) (files' deps files : List String) :
    scoreAll (detectStaticSite reg files').2 deps files = scoreAll reg deps files := by
  cases hfe : firstExisting files' staticLocations with
  | none => rw [dSS_found_none _ _ hfe]
  | some loc =>
    by_cases hloc : loc = "index.html"
    · subst hloc
      rw [dSS_found_root _ _ hfe]
    · rw [dSS_found_other _ _ _ hfe hloc]
      exact scoreAll_staticRegUpdate _ _ _ _

lemma adaptCommand_idem (c pm : String) :
    adaptCommand (adaptCommand c pm) pm = adaptCommand c pm := by
  by_cases h : c = "" ∨ strStarts c "npm run" = true
  · by_cases h1 : pm = "pnpm"
    · subst h1
      have hc : adaptCommand c "pnpm" = "pnpm run " ++ replaceOnce c "npm run " := by
        unfold adaptCommand
        rw [if_pos h, if_pos rfl]
      rw [hc]
      have hne : ¬("pnpm run " ++ replaceOnce c "npm run " = "" ∨
          strStarts ("pnpm run " ++ replaceOnce c "npm run ") "npm run" = true) := by
        rintro (he | hs)
        · have hl := congrArg String.length he
          rw [String.length_append] at hl
          have h9 : ("pnpm run " : String).length = 9 := rfl
          have h0 : ("" : String).length = 0 := rfl
          rw [h9, h0] at hl
          omega
        · have hf : strStarts ("pnpm run " ++ replaceOnce c "npm run ") "npm run" = false := rfl
          rw [hf] at hs
          cases hs
      unfold adaptCommand
      rw [if_neg hne]
    · by_cases h2 : pm = "yarn"
      · subst h2
        have hc : adaptCommand c "yarn" = "yarn " ++ replaceOnce c "npm run " := by
          unfold adaptCommand
          rw [if_pos h, if_neg (by simp), if_pos rfl]
        rw [hc]
        have hne : ¬("yarn " ++ replaceOnce c "npm run " = "" ∨
            strStarts ("yarn " ++ replaceOnce c "npm run ") "npm run" = true) := by
          rintro (he | hs)
          · have hl := congrArg String.length he
            rw [String.length_append] at hl
            have h5 : ("yarn " : String).length = 5 := rfl
            have h0 : ("" : String).length = 0 := rfl
            rw [h5, h0] at hl
            omega
          · have hf : strStarts ("yarn " ++ replaceOnce c "npm run ") "npm run" = false := rfl
            rw [hf] at hs
            cases hs
        unfold adaptCommand
        rw [if_neg hne]
      · by_cases h3 : pm = "bun"
        · subst h3
          have hc : adaptCommand c "bun" = "bun run " ++ replaceOnce c "npm run " := by
            unfold adaptCommand
            rw [if_pos h, if_neg (by simp), if_neg (by simp), if_pos rfl]
          rw [hc]
          have hne : ¬("bun run " ++ replaceOnce c "npm run " = "" ∨
              strStarts ("bun run " ++ replaceOnce c "npm run ") "npm run" = true) := by
            rintro (he | hs)
            · have hl := congrArg String.length he
              rw [String.length_append] at hl
              have h8 : ("bun run " : String).length = 8 := rfl
              have h0 : ("" : String).length = 0 := rfl
              rw [h8, h0] at hl
              omega
            · have hf : strStarts ("bun run " ++ replaceOnce c "npm run ") "npm run" = false := rfl
              rw [hf] at hs
              cases hs
          unfold adaptCommand
          rw [if_neg hne]
        · have hc : adaptCommand c pm = c := by
            unfold adaptCommand
            rw [if_pos h, if_neg h1, if_neg h2, if_neg h3]
          rw [hc, hc]
  · have hc : adaptCommand c pm = c := by
      unfold adaptCommand
      rw [if_neg h]
    rw [hc, hc]

lemma adaptEntry_idem (pm : String) (f : FrameworkConfig) :
    adaptEntry pm (adaptEntry pm f) = adaptEntry pm f := by
  simp [adaptEntry, adaptCommand_idem]

lemma pickBestAux_map_fst (u : FrameworkConfig → FrameworkConfig)
    (l : List (FrameworkConfig × Nat)) :
    ∀ (acc : Option (FrameworkConfig × Nat)),
      pickBestAux (acc.map (fun p => (u p.1, p.2))) (l.map (fun p => (u p.1, p.2)))
        = (pickBestAux acc l).map (fun p => (u p.1, p.2)) := by
  induction l with
  | nil =>
    intro acc
    simp only [List.map_nil, pickBestAux]
  | cons a t ih =>
    intro acc
    cases acc with
    | none =>
      simp only [List.map_cons, Option.map_none', pickBestAux]
      exact ih (some a)
    | some q =>
      simp only [List.map_cons, Option.map_some', pickBestAux]
      by_cases hlt : q.2 < a.2
      · simp only [if_pos hlt]
        exact ih (some a)
      · simp only [if_neg hlt]
        exact ih (some q)

lemma filterPos_map (u : FrameworkConfig → FrameworkConfig)
    (l : List (FrameworkConfig × Nat)) :
    (l.map (fun p => (u p.1, p.2))).filter (fun p => decide (0 < p.2))
      = (l.filter (fun p => decide (0 < p.2))).map (fun p => (u p.1, p.2)) := by
  induction l with
  | nil => rfl
  | cons a t ih =>
    by_cases ha : 0 < a.2 <;> simp [ha, ih]

lemma pickBest_map (u : FrameworkConfig → FrameworkConfig)
    (l : List (FrameworkConfig × Nat)) :
    pickBest (l.map (fun p => (u p.1, p.2)))
      = (pickBest l).map (fun p => (u p.1, p.2)) := by
  unfold pickBest
  rw [filterPos_map]
  exact pickBestAux_map_fst u _ none

lemma pickBestAux_mem (l : List (FrameworkConfig × Nat)) :
    ∀ (acc : Option (FrameworkConfig × Nat)) (p : FrameworkConfig × Nat),
      pickBestAux acc l = some p → acc = some p ∨ p ∈ l := by
  induction l with
  | nil =>
    intro acc p h
    simp only [pickBestAux] at h
    exact Or.inl h
  | cons a t ih =>
    intro acc p h
    cases acc with
    | none =>
      rcases ih (some a) p h with h1 | h2
      · cases h1
        exact Or.inr (List.mem_cons_self a t)
      · exact Or.inr (List.mem_cons_of_mem a h2)
    | some q0 =>
      simp only [pickBestAux] at h
      by_cases hlt : q0.2 < a.2
      · rw [if_pos hlt] at h
        rcases ih (some a) p h with h1 | h2
        · cases h1
          exact Or.inr (List.mem_cons_self a t)
        · exact Or.inr (List.mem_cons_of_mem a h2)
      · rw [if_neg hlt] at h
        rcases ih (some q0) p h with h1 | h2
        · exact Or.inl h1
        · exact Or.inr (List.mem_cons_of_mem a h2)

lemma pickBest_mem (l : List (FrameworkConfig × Nat)) (p : FrameworkConfig × Nat)
    (h : pickBest l = some p) : p ∈ l ∧ 0 < p.2 := by
  rcases pickBestAux_mem _ none p h with h1 | h2
  · cases h1
  · have hm := List.mem_filter.mp h2
    exact ⟨hm.1, by simpa using hm.2⟩

lemma pickBestAux_acc_le (l : List (FrameworkConfig × Nat)) :
    ∀ (q0 p : FrameworkConfig × Nat), pickBestAux (some q0) l = some p → q0.2 ≤ p.2 := by
  induction l with
  | nil =>
    intro q0 p h
    cases h
    exact le_rfl
  | cons a t ih =>
    intro q0 p h
    simp only [pickBestAux] at h
    by_cases hlt : q0.2 < a.2
    · rw [if_pos hlt] at h
      exact le_of_lt (lt_of_lt_of_le hlt (ih a p h))
    · rw [if_neg hlt] at h
      exact ih q0 p h

lemma pickBestAux_le (l : List (FrameworkConfig × Nat)) :
    ∀ (acc : Option (FrameworkConfig × Nat)) (p : FrameworkConfig × Nat),
      pickBestAux acc l = some p → ∀ q ∈ l, q.2 ≤ p.2 := by
  induction l with
  | nil =>
    intro acc p _ q hq
    exact absurd hq (List.not_mem_nil q)
  | cons a t ih =>
    intro acc p h q hq
    rcases List.mem_cons.mp hq with rfl | hqt
    · cases acc with
      | none => exact pickBestAux_acc_le t q p h
      | some q0 =>
        simp only [pickBestAux] at h
        by_cases hlt : q0.2 < q.2
        · rw [if_pos hlt] at h
          exact pickBestAux_acc_le t q p h
        · rw [if_neg hlt] at h
          exact le_trans (Nat.le_of_not_lt hlt) (pickBestAux_acc_le t q0 p h)
    · cases acc with
      | none => exact ih (some a) p h q hqt
      | some q0 =>
        simp only [pickBestAux] at h
        exact ih _ p h q hqt

lemma pickBest_max (l : List (FrameworkConfig × Nat)) (p : FrameworkConfig × Nat)
    (h : pickBest l = some p) : ∀ q ∈ l, 0 < q.2 → q.2 ≤ p.2 := by
  intro q hq hqpos
  exact pickBestAux_le _ none p h q (List.mem_filter.mpr ⟨hq, by simpa using hqpos⟩)

lemma mem_scoreAll (reg : List FrameworkConfig) (deps files : List String)
    (f : FrameworkConfig) (s : Nat) :
    (f, s) ∈ scoreAll reg deps files ↔
      f ∈ reg ∧ f.name ≠ "static" ∧ s = scoreFramework f deps files := by
  constructor
  · intro h
    rcases List.mem_map.mp h with ⟨a, ha, heq⟩
    have ha1 : a = f := congrArg Prod.fst heq
    have ha2 : scoreFramework a deps files = s := congrArg Prod.snd heq
    subst ha1
    rcases List.mem_filter.mp ha with ⟨h1, h2⟩
    refine ⟨h1, ?_, ha2.symm⟩
    simpa using h2
  · rintro ⟨h1, h2, rfl⟩
    exact List.mem_map.mpr ⟨f, List.mem_filter.mpr ⟨h1, by simpa using h2⟩, rfl⟩

lemma detect_absent (reg : List FrameworkConfig) (files : List String) :
    detect reg ⟨.absent, files⟩ = detectStaticSite reg files := rfl

lemma detect_malformed (reg : List FrameworkConfig) (files : List String) :
    detect reg ⟨.malformed, files⟩ = detectStaticSite reg files := rfl

lemma detect_parsed_none (reg : List FrameworkConfig) (deps files : List String)
    (h : pickBest (scoreAll reg deps files) = none) :
    detect reg ⟨.parsed deps, files⟩ = detectStaticSite reg files := by
  show (match pickBest (scoreAll reg deps files) with
    | none => detectStaticSite reg files
    | some (f, _) => enhanceFrameworkConfig reg f files) = detectStaticSite reg files
  rw [h]

lemma detect_parsed_some (reg : List FrameworkConfig) (deps files : List String)
    (f : FrameworkConfig) (s : Nat)
    (h : pickBest (scoreAll reg deps files) = some (f, s)) :
    detect reg ⟨.parsed deps, files⟩ = enhanceFrameworkConfig reg f files := by
  show (match pickBest (scoreAll reg deps files) with
    | none => detectStaticSite reg files
    | some (f, _) => enhanceFrameworkConfig reg f files) = enhanceFrameworkConfig reg f files
  rw [h]

lemma enhance_not_static (reg : List FrameworkConfig) (f : FrameworkConfig)
    (files : List String) (h : ¬ f.name = "static") :
    enhanceFrameworkConfig reg f files =
      (some (adaptEntry (detectPackageManager files) f),
       reg.map (fun g =>
         if g.name = f.name then adaptEntry (detectPackageManager files) g else g)) := by
  unfold enhanceFrameworkConfig
  rw [if_neg h]

lemma detect_idem (reg : List FrameworkConfig) (fs : ProjectFS) :
    detect (detect reg fs).2 fs = detect reg fs := by
  obtain ⟨m, files⟩ := fs
  cases m with
  | absent =>
    rw [detect_absent, detect_absent]
    exact detectStaticSite_idem reg files
  | malformed =>
    rw [detect_malformed, detect_malformed]
    exact detectStaticSite_idem reg files
  | parsed deps =>
    cases hpb : pickBest (scoreAll reg deps files) with
    | none =>
      rw [detect_parsed_none reg deps files hpb]
      have h2 : pickBest (scoreAll (detectStaticSite reg files).2 deps files) = none := by
        rw [scoreAll_dSS_reg]
        exact hpb
      rw [detect_parsed_none _ deps files h2]
      exact detectStaticSite_idem reg files
    | some p =>
      obtain ⟨f, s⟩ := p
      have hmem := (pickBest_mem _ _ hpb).1
      have hns : ¬ f.name = "static" := ((mem_scoreAll reg deps files f s).mp hmem).2.1
      rw [detect_parsed_some reg deps files f s hpb, enhance_not_static reg f files hns]
      set pm := detectPackageManager files with hpm
      set u : FrameworkConfig → FrameworkConfig :=
        fun g => if g.name = f.name then adaptEntry pm g else g with hu
      have huf : u f = adaptEntry pm f := by
        rw [hu]
        simp
      have hscoreu : ∀ g, scoreFramework (u g) deps files = scoreFramework g deps files := by
        intro g
        rw [hu]
        by_cases hg : g.name = f.name
        · simp [hg, scoreFramework_adaptEntry]
        · simp [hg]
      have hnameu : ∀ g, (u g).name = g.name := by
        intro g
        rw [hu]
        by_cases hg : g.name = f.name
        · simp [hg, adaptEntry_name]
        · simp [hg]
      have hsa : scoreAll (reg.map u) deps files
          = (scoreAll reg deps files).map (fun p => (u p.1, p.2)) :=
        scoreAll_map_eq reg u deps files hnameu hscoreu
      have hpb2 : pickBest (scoreAll (reg.map u) deps files) = some (u f, s) := by
        rw [hsa, pickBest_map, hpb]
        rfl
      rw [huf] at hpb2
      have hns2 : ¬ (adaptEntry pm f).name = "static" := by
        rw [adaptEntry_name]
        exact hns
      rw [detect_parsed_some (reg.map u) deps files (adaptEntry pm f) s hpb2,
        enhance_not_static (reg.map u) (adaptEntry pm f) files hns2]
      rw [← hpm, adaptEntry_idem]
      have huu : (reg.map u).map (fun g =>
          if g.name = (adaptEntry pm f).name then adaptEntry pm g else g) = reg.map u := by
        have hsame : (fun g => if g.name = (adaptEntry pm f).name then adaptEntry pm g else g)
            = u := by
          funext g
          rw [adaptEntry_name, hu]
        rw [hsame]
        apply map_idem_of
        intro a
        rw [hu]
        by_cases ha : a.name = f.name
        · simp [ha, adaptEntry_name, adaptEntry_idem]
        · simp [ha]
      rw [huu]

lemma map_registrySignature_of (l : List FrameworkConfig)
    (u : FrameworkConfig → FrameworkConfig)
    (h : ∀ a, registrySignature (u a) = registrySignature a) :
    (l.map u).map registrySignature = l.map registrySignature := by
  induction l with
  | nil => rfl
  | cons a t ih => simp [h a, ih]

lemma dSS_preserves_signature (reg : List FrameworkConfig) (files : List String) :
    ((detectStaticSite reg files).2).map registrySignature = reg.map registrySignature := by
  cases hfe : firstExisting files staticLocations with
  | none => rw [dSS_found_none _ _ hfe]
  | some loc =>
    by_cases hloc : loc = "index.html"
    · subst hloc
      rw [dSS_found_root _ _ hfe]
    · rw [dSS_found_other _ _ _ hfe hloc]
      show (staticRegUpdate (replaceOnce loc "/index.html") reg).map registrySignature = _
      unfold staticRegUpdate
      apply map_registrySignature_of
      intro a
      by_cases ha : a.name = "static"
      · simp [ha, registrySignature, setStaticOutputDir]
      · simp [ha]

lemma detect_preserves_signature (reg : List FrameworkConfig) (fs : ProjectFS) :
    ((detect reg fs).2).map registrySignature = reg.map registrySignature := by
  obtain ⟨m, files⟩ := fs
  cases m with
  | absent =>
    rw [detect_absent]
    exact dSS_preserves_signature reg files
  | malformed =>
    rw [detect_malformed]
    exact dSS_preserves_signature reg files
  | parsed deps =>
    cases hpb : pickBest (scoreAll reg deps files) with
    | none =>
      rw [detect_parsed_none reg deps files hpb]
      exact dSS_preserves_signature reg files
    | some p =>
      obtain ⟨f, s⟩ := p
      have hns : ¬ f.name = "static" :=
        ((mem_scoreAll reg deps files f s).mp (pickBest_mem _ _ hpb).1).2.1
      rw [detect_parsed_some reg deps files f s hpb, enhance_not_static reg f files hns]
      show (reg.map _).map registrySignature = _
      apply map_registrySignature_of
      intro a
      by_cases ha : a.name = f.name
      · simp [ha, registrySignature, adaptEntry]
      · simp [ha]

lemma dSS_result_name (reg : List FrameworkConfig) (files : List String)
    (r : FrameworkConfig) (h : (detectStaticSite reg files).1 = some r) :
    r.name = "static" := by
  cases hfe : firstExisting files staticLocations with
  | none =>
    rw [dSS_found_none _ _ hfe] at h
    cases h
  | some loc =>
    by_cases hloc : loc = "index.html"
    · subst hloc
      rw [dSS_found_root _ _ hfe] at h
      have := List.find?_some h
      simpa using this
    · rw [dSS_found_other _ _ _ hfe hloc] at h
      have := List.find?_some h
      simpa using this

lemma eq_reactConfig_of_mem (f : FrameworkConfig) (hf : f ∈ initialFrameworks)
    (hn : f.name = "react") : f = reactConfig := by
  simp only [initialFrameworks, List.mem_cons, List.not_mem_nil, or_false] at hf
  rcases hf with rfl | rfl | rfl | rfl | rfl | rfl | rfl | rfl | rfl <;>
    first
      | rfl
      | exact absurd hn (by decide)

lemma detect_parsed_name_ne_react (deps files : List String) (g : FrameworkConfig)
    (hg : (g, scoreFramework g deps files) ∈ scoreAll initialFrameworks deps files)
    (hbeat : scoreFramework reactConfig deps files < scoreFramework g deps files) :
    ((detect initialFrameworks ⟨.parsed deps, files⟩).1.map FrameworkConfig.name)
      ≠ some "react" := by
  intro hcontra
  cases hpb : pickBest (scoreAll initialFrameworks deps files) with
  | none =>
    rw [detect_parsed_none initialFrameworks deps files hpb] at hcontra
    cases hd : (detectStaticSite initialFrameworks files).1 with
    | none => rw [hd] at hcontra; cases hcontra
    | some r =>
      rw [hd] at hcontra
      have hr : r.name = "react" := Option.some.inj hcontra
      have hs := dSS_result_name initialFrameworks files r hd
      rw [hr] at hs
      exact absurd hs (by decide)
  | some p =>
    obtain ⟨f, s⟩ := p
    have hm := pickBest_mem _ _ hpb
    obtain ⟨hfm, hfs, hsc⟩ := (mem_scoreAll _ _ _ _ _).mp hm.1
    rw [detect_parsed_some _ _ _ _ _ hpb, enhance_not_static _ _ _ hfs] at hcontra
    have hr : (adaptEntry (detectPackageManager files) f).name = "react" :=
      Option.some.inj hcontra
    rw [adaptEntry_name] at hr
    have hfe : f = reactConfig := eq_reactConfig_of_mem f hfm hr
    subst hfe
    have hgpos : 0 < scoreFramework g deps files :=
      Nat.lt_of_le_of_lt (Nat.zero_le _) hbeat
    have hle : scoreFramework g deps files ≤ s :=
      pickBest_max _ _ hpb (g, scoreFramework g deps files) hg hgpos
    rw [hsc] at hle
    exact absurd hle (Nat.not_le.mpr hbeat)

lemma depWeight_nextjs_next : depWeight "nextjs" "next" = 150 := by decide

lemma depWeight_react_vite : depWeight "react" "vite" = 50 := by decide

lemma depWeight_react_react : depWeight "react" "react" = 50 := by decide

lemma depWeight_svelte_svelte : depWeight "svelte" "svelte" = 75 := by decide

lemma depWeight_svelte_kit : depWeight "svelte" "@sveltejs/kit" = 150 := by decide

lemma scoreFramework_nextjs_eq (deps files : List String) :
    scoreFramework nextjsConfig deps files
      = (if deps.contains "next" = true then 150 else 0)
        + cfgScore ["next.config.js", "next.config.mjs", "next.config.ts"] files := by
  simp [scoreFramework, nextjsConfig, depScoreList, depWeight_nextjs_next]

lemma scoreFramework_react_eq (deps files : List String) :
    scoreFramework reactConfig deps files
      = (if deps.contains "vite" = true then 50 else 0)
        + ((if deps.contains "react" = true then 50 else 0)
        + cfgScore ["vite.config.js", "vite.config.ts", "vite.config.mjs"] files) := by
  simp [scoreFramework, reactConfig, depScoreList, depWeight_react_vite,
    depWeight_react_react, Nat.add_assoc]

lemma scoreFramework_svelte_eq (deps files : List String) :
    scoreFramework svelteConfig deps files
      = (if deps.contains "svelte" = true then 75 else 0)
        + ((if deps.contains "@sveltejs/kit" = true then 150 else 0)
        + cfgScore ["svelte.config.js"] files) := by
  simp [scoreFramework, svelteConfig, depScoreList, depWeight_svelte_svelte,
    depWeight_svelte_kit, Nat.add_assoc]

/-! ### The claims -/

/-- C1 (amended): whenever the manifest carries a meta-framework dependency
signal (`next` for nextjs, `@sveltejs/kit` for sveltekit) and the config-file
contribution to the two scores is the same for the meta-framework and the
underlying build-tool variant (react/vite) — in particular when neither has a
matching config file — the meta-framework's summed score strictly exceeds the
underlying tool's summed score, whatever other dependencies (such as `vite`
and `react`) are present, and detection consequently never resolves to the
underlying react/vite variant. -/
theorem c1_meta_outscores_build_tool (deps files : List String) :
    (deps.contains "next" = true →
      cfgScore nextjsConfig.detection.configFiles files
        = cfgScore reactConfig.detection.configFiles files →
      scoreFramework reactConfig deps files < scoreFramework nextjsConfig deps files
      ∧ ((detect initialFrameworks ⟨.parsed deps, files⟩).1.map FrameworkConfig.name)
          ≠ some "react")
    ∧ (deps.contains "@sveltejs/kit" = true →
      cfgScore svelteConfig.detection.configFiles files
        = cfgScore reactConfig.detection.configFiles files →
      scoreFramework reactConfig deps files < scoreFramework svelteConfig deps files
      ∧ ((detect initialFrameworks ⟨.parsed deps, files⟩).1.map FrameworkConfig.name)
          ≠ some "react") := by
  constructor
  · intro hnext hcfg
    have hcfg2 : cfgScore ["next.config.js", "next.config.mjs", "next.config.ts"] files
        = cfgScore ["vite.config.js", "vite.config.ts", "vite.config.mjs"] files := hcfg
    have h150 : (if deps.contains "next" = true then 150 else 0) = 150 := by
      rw [hnext]
      rfl
    have hbeat : scoreFramework reactConfig deps files
        < scoreFramework nextjsConfig deps files := by
      rw [scoreFramework_nextjs_eq, scoreFramework_react_eq, h150, hcfg2]
      split_ifs <;> omega
    exact ⟨hbeat,
      detect_parsed_name_ne_react deps files nextjsConfig
        ((mem_scoreAll _ _ _ _ _).mpr ⟨by decide, by decide, rfl⟩) hbeat⟩
  · intro hkit hcfg
    have hcfg2 : cfgScore ["svelte.config.js"] files
        = cfgScore ["vite.config.js", "vite.config.ts", "vite.config.mjs"] files := hcfg
    have h150 : (if deps.contains "@sveltejs/kit" = true then 150 else 0) = 150 := by
      rw [hkit]
      rfl
    have hbeat : scoreFramework reactConfig deps files
        < scoreFramework svelteConfig deps files := by
      rw [scoreFramework_svelte_eq, scoreFramework_react_eq, h150, hcfg2]
      split_ifs <;> omega
    exact ⟨hbeat,
      detect_parsed_name_ne_react deps files svelteConfig
        ((mem_scoreAll _ _ _ _ _).mpr ⟨by decide, by decide, rfl⟩) hbeat⟩

theorem c1_meta_outscores_build_tool_witness :
    (["next", "react", "vite"].contains "next" = true)
    ∧ (cfgScore nextjsConfig.detection.configFiles []
        = cfgScore reactConfig.detection.configFiles [])
    ∧ scoreFramework reactConfig ["next", "react", "vite"] []
        < scoreFramework nextjsConfig ["next", "react", "vite"] [] :=
  ⟨by decide, by decide,
   ((c1_meta_outscores_build_tool ["next", "react", "vite"] []).1 (by decide) (by decide)).1⟩

/-- C1 counterexample: a project whose manifest has `next`, `react` and `vite`
and whose file system has a `vite.config.js` but no next config file.  The
meta-framework (nextjs) scores 150 while the underlying build-tool variant
(react/vite) scores 200 — the meta-framework's summed score does not strictly
exceed the underlying tool's, and detection resolves to the react variant. -/
theorem c1_config_file_tips_to_react :
    ((detect initialFrameworks
        ⟨.parsed ["next", "react", "vite"], ["vite.config.js"]⟩).1.map FrameworkConfig.name)
      = some "react"
    ∧ scoreFramework nextjsConfig ["next", "react", "vite"] ["vite.config.js"] = 150
    ∧ scoreFramework reactConfig ["next", "react", "vite"] ["vite.config.js"] = 200 := by
  refine ⟨rfl, rfl, rfl⟩

/-- C2: the Resolver classifies a completed build artifact by testing rules in
fixed priority order with first match winning: server entry and root
`index.html` → hybrid; server entry only → ssr; opennext framework hint with
its `.open-next` marker directory → platform adapter; root `index.html` only →
static; otherwise unknown/best-effort.  In particular an artifact with both a
server entry and a root `index.html` resolves to hybrid, never ssr — also in
the builder-side `determineDeploymentType`. -/
theorem c2_resolver_priority_order (p : DeployProbe) :
    (p.workerIndex = true → p.indexHtml = true → resolveDeployment p = .hybrid)
    ∧ (p.workerIndex = true → p.indexHtml = false → resolveDeployment p = .ssr)
    ∧ (p.workerIndex = false → (p.framework == "opennext" && p.openNextDir) = true →
        resolveDeployment p = .platformAdapter)
    ∧ (p.workerIndex = false → (p.framework == "opennext" && p.openNextDir) = false →
        p.indexHtml = true → resolveDeployment p = .staticAssets)
    ∧ (p.workerIndex = false → (p.framework == "opennext" && p.openNextDir) = false →
        p.indexHtml = false → resolveDeployment p = .unknownLayout)
    ∧ determineDeploymentType true true = "hybrid" := by
  obtain ⟨w, i, fw, o⟩ := p
  refine ⟨?_, ?_, ?_, ?_, ?_, rfl⟩ <;>
    · intros h1 h2
      simp_all [resolveDeployment]

theorem c2_resolver_priority_order_witness :
    resolveDeployment ⟨true, true, "astro", false⟩ = .hybrid :=
  (c2_resolver_priority_order ⟨true, true, "astro", false⟩).1 rfl rfl

/-- C3: for a build artifact containing both the server-entry file
`_worker.js/index.js` and a root `index.html`, the Resolver classifies it as
hybrid, the hybrid deploy runs from a scratch directory (isolation), and the
artifact set copied into the scratch directory excludes both the server-entry
file and the `_routes.json` route manifest. -/
theorem c3_hybrid_isolated_and_stripped (files : List String) (fw : String)
    (openNext : Bool) (wranglerOk : Bool)
    (hw : files.contains "_worker.js/index.js" = true)
    (hi : files.contains "index.html" = true) :
    resolveDeployment (probeOfBuildDir files fw openNext) = .hybrid
    ∧ (deployHybridBuild files wranglerOk).usedScratch = true
    ∧ "_worker.js/index.js" ∉ hybridCopiedFiles files
    ∧ "_routes.json" ∉ hybridCopiedFiles files := by
  refine ⟨?_, rfl, ?_, ?_⟩
  · unfold resolveDeployment probeOfBuildDir
    rw [hw, hi]
    rfl
  · intro hmem
    have h2 := (List.mem_filter.mp hmem).2
    exact absurd h2 (by decide)
  · intro hmem
    have h2 := (List.mem_filter.mp hmem).2
    exact absurd h2 (by decide)

theorem c3_hybrid_isolated_and_stripped_witness :
    (["_worker.js/index.js", "index.html", "_routes.json", "assets/app.js"].contains
        "_worker.js/index.js" = true)
    ∧ (["_worker.js/index.js", "index.html", "_routes.json", "assets/app.js"].contains
        "index.html" = true)
    ∧ (resolveDeployment (probeOfBuildDir
          ["_worker.js/index.js", "index.html", "_routes.json", "assets/app.js"] "astro" false)
        = .hybrid
      ∧ (deployHybridBuild
          ["_worker.js/index.js", "index.html", "_routes.json", "assets/app.js"] true).usedScratch
          = true
      ∧ "_worker.js/index.js" ∉ hybridCopiedFiles
          ["_worker.js/index.js", "index.html", "_routes.json", "assets/app.js"]
      ∧ "_routes.json" ∉ hybridCopiedFiles
          ["_worker.js/index.js", "index.html", "_routes.json", "assets/app.js"]) :=
  ⟨by decide, by decide,
   c3_hybrid_isolated_and_stripped
     ["_worker.js/index.js", "index.html", "_routes.json", "assets/app.js"]
     "astro" false true (by decide) (by decide)⟩

/-- C4 counterexample: with a manifest that exists but cannot be parsed and an
`index.html` at the root, `detect` behaves exactly as if the manifest were
absent and silently continues into static-site detection — there is no
distinct manifest-malformed error (the `try/catch` around `fs.readJson`
returns `null` for both missing and malformed files). -/
theorem c4_malformed_manifest_counterexample :
    detect initialFrameworks ⟨.malformed, ["index.html"]⟩
      = detect initialFrameworks ⟨.absent, ["index.html"]⟩
    ∧ (detect initialFrameworks ⟨.malformed, ["index.html"]⟩).1 = some staticConfig := by
  exact ⟨rfl, by decide⟩

/-- C4 (amended): if the manifest exists but cannot be parsed, the parse
failure is swallowed and detection proceeds exactly as if the manifest were
absent — it falls through to static-site detection (and to the no-framework
outcome when that fails too); no distinct manifest-malformed error is ever
reported. -/
theorem c4_malformed_equals_absent (files : List String) :
    detect initialFrameworks ⟨.malformed, files⟩
      = detect initialFrameworks ⟨.absent, files⟩ := rfl

/-- C5: a project with no manifest and an `index.html` at its root is detected
as the static variant, with the effective output directory equal to the
project root (`.`), and the missing manifest causes no failure. -/
theorem c5_no_manifest_root_index_static (files : List String)
    (h : files.contains "index.html" = true) :
    detect initialFrameworks ⟨.absent, files⟩ = (some staticConfig, initialFrameworks)
    ∧ staticConfig.build.outputDir = "." := by
  refine ⟨?_, rfl⟩
  rw [detect_absent]
  have hmem : "index.html" ∈ files := by simpa using h
  have hfe : firstExisting files staticLocations = some "index.html" := by
    simp [staticLocations, firstExisting, hmem]
  rw [dSS_found_root _ _ hfe]
  rfl

theorem c5_no_manifest_root_index_static_witness :
    (["index.html"].contains "index.html" = true)
    ∧ (detect initialFrameworks ⟨.absent, ["index.html"]⟩
        = (some staticConfig, initialFrameworks)
      ∧ staticConfig.build.outputDir = ".") :=
  ⟨by decide, c5_no_manifest_root_index_static ["index.html"] (by decide)⟩

/-- C6 counterexample: a single `detect()` call mutates the registry.  With no
manifest and `public/index.html` present, static-site fallback rewrites the
static variant's output directory from `.` to `public` inside the registry;
with a parsed manifest containing `next` and a `pnpm-lock.yaml`, command
adaptation rewrites the nextjs entry's build command to `pnpm run build`
inside the registry. -/
theorem c6_registry_mutated_counterexample :
    (detect initialFrameworks ⟨.absent, ["public/index.html"]⟩).2 ≠ initialFrameworks
    ∧ (((detect initialFrameworks ⟨.absent, ["public/index.html"]⟩).2.find?
          (fun f => f.name == "static")).map (fun f => f.build.outputDir)) = some "public"
    ∧ (((initialFrameworks.find? (fun f => f.name == "static")).map
          (fun f => f.build.outputDir))) = some "."
    ∧ (((detect initialFrameworks ⟨.parsed ["next"], ["pnpm-lock.yaml"]⟩).2.find?
          (fun f => f.name == "nextjs")).map (fun f => f.build.command))
        = some "pnpm run build" := by
  refine ⟨by decide, by decide, by decide, by decide⟩

/-- C6 (amended): the registry is not immutable — `detectStaticSite` rewrites
the static variant's output directory in place and `enhanceFrameworkConfig`
rewrites the detected variant's build/dev commands in place (through the
shallow copy's aliased nested objects) — but every other field is preserved:
after any `detect()` call each registry entry keeps its name, detection
signals, deploy settings and dev port. -/
theorem c6_registry_signature_preserved (fs : ProjectFS) :
    ((detect initialFrameworks fs).2).map registrySignature
      = initialFrameworks.map registrySignature :=
  detect_preserves_signature initialFrameworks fs

/-- C7 counterexample: on the adapter-managed (opennext) deploy path, when the
expected `worker.js` is missing from the copied output, the deploy step exits
through `exit_with_help` and the scratch directory it created is left behind —
the scratch directory is not removed on this exit path. -/
theorem c7_scratch_leak_counterexample :
    (deployOpenNextBuild ["assets/page.html", "server-functions/default.js"] true).usedScratch
      = true
    ∧ (deployOpenNextBuild ["assets/page.html", "server-functions/default.js"] true).scratchLeaked
      = true
    ∧ (deployOpenNextBuild ["assets/page.html", "server-functions/default.js"] true).outcome
      = .exitedWithHelp := by
  refine ⟨by decide, by decide, by decide⟩

/-- C7 (amended): scratch deployment directories are removed on every exit
path of the hybrid and pure-SSR deploy steps (success and failure alike), and
on the adapter-managed path whenever the expected `worker.js` is present in
the copied output; on the adapter error path where `worker.js` is missing the
process exits leaving the scratch directory behind. -/
theorem c7_scratch_cleanup (files : List String) (wranglerOk : Bool) :
    (deployHybridBuild files wranglerOk).scratchLeaked = false
    ∧ (deploySsrBuild files wranglerOk).scratchLeaked = false
    ∧ ((copyGlob files).contains "worker.js" = true →
        (deployOpenNextBuild files wranglerOk).scratchLeaked = false) := by
  refine ⟨rfl, rfl, ?_⟩
  intro h
  simp only [deployOpenNextBuild]
  rw [h]
  rfl

theorem c7_scratch_cleanup_witness :
    ((copyGlob ["worker.js", "assets/page.html"]).contains "worker.js" = true)
    ∧ (deployOpenNextBuild ["worker.js", "assets/page.html"] true).scratchLeaked = false :=
  ⟨by decide, (c7_scratch_cleanup ["worker.js", "assets/page.html"] true).2.2 (by decide)⟩

/-- C8 counterexample: the adapter-managed (opennext) deploy does not deploy
in place — it creates a `/tmp/deploy-…` scratch directory and deploys the
copied `.open-next` output from there, even on its normal success path. -/
theorem c8_opennext_scratch_counterexample :
    (deployOpenNextBuild ["worker.js", "assets/page.html"] true).usedScratch = true
    ∧ (deployOpenNextBuild ["worker.js", "assets/page.html"] true).outcome = .success := by
  refine ⟨by decide, by decide⟩

/-- C8 (amended): only the static and unknown-layout topologies deploy in
place from the build directory; the hybrid, pure-SSR and adapter-managed
(opennext) topologies each create a scratch deployment directory. -/
theorem c8_in_place_topologies (files : List String) (ok : Bool) :
    (deployStaticBuild files ok).usedScratch = false
    ∧ (deployUnknownBuild files ok).usedScratch = false
    ∧ (deployHybridBuild files ok).usedScratch = true
    ∧ (deploySsrBuild files ok).usedScratch = true
    ∧ (deployOpenNextBuild files ok).usedScratch = true := by
  refine ⟨rfl, rfl, rfl, rfl, ?_⟩
  simp only [deployOpenNextBuild]
  by_cases h : (copyGlob files).contains "worker.js" = true
  · rw [h]
    rfl
  · rw [if_neg h]

/-- C9: running the Detector twice against an unchanged project directory
yields the identical detection result (same variant, same adapted build and
dev commands, same output directory) and leaves the registry in the same
state, even though the first run rewrites command templates in the registry
for the detected package manager. -/
theorem c9_detector_idempotent (fs : ProjectFS) :
    detect (detect initialFrameworks fs).2 fs = detect initialFrameworks fs :=
  detect_idem initialFrameworks fs

/-- C10: the worker name placed in the generated wrangler configuration is the
project name lowercased with every character outside lowercase letters, digits
and hyphen replaced by `-`; consequently every generated configuration's name
matches `^[a-z0-9-]*$` regardless of the input name. -/
theorem c10_worker_name_sanitised (projectName today : String) :
    (generateBaseConfig projectName today).name = sanitizeWorkerName projectName
    ∧ (generateBaseConfig projectName today).name.data.all isAllowedNameChar = true := by
  refine ⟨rfl, ?_⟩
  show (sanitizeWorkerName projectName).data.all isAllowedNameChar = true
  rw [List.all_eq_true]
  intro c hc
  rcases List.mem_map.mp hc with ⟨d, -, rfl⟩
  by_cases hd : isAllowedNameChar d = true
  · simp [hd]
  · simp only [Bool.not_eq_true] at hd
    rw [if_neg (by simp [hd])]
    decide
